import Mathlib

/-!
Verification development for the `cachestore` Go package (a cache-aside layer
between App Engine memcache and datastore).

The embedding below translates the package's own functions
(`encodeKeys`, `encodeItems`, `cache`, `decodeItems`, `GetMulti`, `Get`,
`PutMulti`, `Put`, `DeleteMulti`, `Delete`, `checkMultiArg`,
`gobToProperties`) into Lean.  The two external collaborators — the durable
datastore and the volatile memcache — are modelled abstractly: the memcache
contents as a string-keyed partial map, and the datastore as oracle
functions bundled in a `World` structure (the package treats both as opaque
services; only the shape of their answers matters here).

Records (`interface{}` values in Go) are modelled opaquely as strings; their
gob encodings are produced by the world's `encode` oracle.  The
`reflect`-level `Addr()` adjustment that `encodeItems`/`decodeItems` perform
for struct and PropertyLoadSaver slices is observable in the model as the
boolean flag handed to the encode/decode oracles.

Each batch operation additionally returns the list of I/O events it issued
(cache lookups/writes/deletes and store reads/writes/deletes, in order), so
that statements about "what I/O was attempted" can be made precisely.
-/

namespace Cachestore

/-- A durable-store identifier (`*datastore.Key`): `enc` is what
`Key.Encode()` returns and `incomplete` is `Key.Incomplete()`. -/
structure DKey where
  enc : String
  incomplete : Bool
deriving DecidableEq, Repr

/-- The `multiArgType` enumeration from `src/appengine.go`. -/
inductive MultiArgType where
  | invalid
  | propertyLoadSaver
  | structT
  | structPtr
  | interfaceT
deriving DecidableEq, Repr

/-- A shallow model of the `reflect.Type`s that `checkMultiArg` inspects.
`ptrPLS` records whether `reflect.PtrTo(t)` implements
`datastore.PropertyLoadSaver`; `isPropList` marks the named type
`datastore.PropertyList` (itself a slice of structs). -/
inductive GoType where
  | sliceT (ptrPLS : Bool) (isPropList : Bool) (elem : GoType)
  | structT (ptrPLS : Bool)
  | ifaceT (ptrPLS : Bool)
  | ptrT (ptrPLS : Bool) (elem : GoType)
  | otherT (ptrPLS : Bool)
deriving DecidableEq, Repr

/-- Whether the pointer type to this type implements `PropertyLoadSaver`. -/
def GoType.ptrPLS : GoType → Bool
  | .sliceT b _ _ => b
  | .structT b => b
  | .ifaceT b => b
  | .ptrT b _ => b
  | .otherT b => b

/-- `checkMultiArg` from `src/appengine.go` (lines 34–57): classify a value
of type `[]S`, `[]*S`, `[]I` or `[]P`, rejecting non-slices and
`datastore.PropertyList`, and return the element type alongside. -/
def checkMultiArg : GoType → MultiArgType × Option GoType
  | .sliceT _ isPropList elem =>
    if isPropList then (.invalid, none)
    else if elem.ptrPLS then (.propertyLoadSaver, some elem)
    else
      match elem with
      | .structT _ => (.structT, some elem)
      | .ifaceT _ => (.interfaceT, some elem)
      | .ptrT _ inner =>
        match inner with
        | .structT _ => (.structPtr, some inner)
        | _ => (.invalid, none)
      | _ => (.invalid, none)
  | _ => (.invalid, none)

/-- `encodeItems`/`decodeItems` call `elem.Addr()` exactly when the batch was
classified as a struct slice or a PropertyLoadSaver slice. -/
def addrTaken (m : MultiArgType) : Bool :=
  m = MultiArgType.propertyLoadSaver || m = MultiArgType.structT

/-- Modelled from the spec: the record-sequence shapes §4.3 calls
"recognized" — a slice of structs, of struct pointers, of interface values,
or of PropertyLoadSaver-implementing values, with `PropertyList` excluded.
Written from the spec's words, to be compared with `checkMultiArg`. -/
def recognizedShape : GoType → Bool
  | .sliceT _ isPropList elem =>
    !isPropList &&
      (elem.ptrPLS ||
        (match elem with
         | .structT _ => true
         | .ifaceT _ => true
         | .ptrT _ (.structT _) => true
         | _ => false))
  | _ => false

/-- A value inside a `datastore.Property`; only the distinction between
`datastore.Key` by value, `*datastore.Key`, and everything else matters. -/
inductive PValue where
  | keyVal (k : DKey)
  | keyPtr (k : DKey)
  | other (s : String)
deriving DecidableEq, Repr

/-- A `datastore.Property` (name/value pair). -/
structure Property where
  name : String
  value : PValue
deriving DecidableEq, Repr

/-- A gob payload stored in a memcache item: either a well-formed encoding
of a property list, or bytes the gob decoder rejects. -/
inductive GobData where
  | props (ps : List Property)
  | corrupt (msg : String)
deriving DecidableEq, Repr

/-- A flat (per-position) error: `datastore.ErrNoSuchEntity` or any other
named error (decode failures, store failures, ...). -/
inductive PErr where
  | noSuchEntity
  | named (s : String)
deriving DecidableEq, Repr

/-- An error as returned by the batch operations: either a plain error or an
`appengine.MultiError`, whose entries are the per-position errors (`none`
standing for Go's `nil` at a succeeded position).  Per-position errors are
flat, matching the collaborator contract that batch stores report
per-position errors, never nested multi-errors. -/
inductive GErr where
  | flat (e : PErr)
  | multi (es : List (Option PErr))
deriving DecidableEq, Repr

/-- Records (`interface{}` slice elements) are opaque in this model. -/
abbrev Rec := String

/-- The memcache contents: a string-keyed partial map of gob payloads. -/
abbrev CSt := String → Option GobData

/-- One I/O round trip issued against either backend. -/
inductive Ev where
  | cacheGet (ks : List String)
  | cacheSet (items : List (String × GobData))
  | cacheDel (ks : List String)
  | storeGet (ks : List DKey)
  | storePut (ks : List DKey)
  | storeDel (ks : List DKey)
deriving DecidableEq, Repr

/-- The external collaborators and the gob codec, as oracles.
`storeGet`/`storePut`/`storeDel` are `datastore.GetMulti`/`PutMulti`/
`DeleteMulti`; `encode`/`decode` are the package's gob round trip for one
record (the `Bool` is whether `Addr()` was taken on the slice element);
`setMultiErr` is the outcome of `memcache.SetMulti`. -/
structure World where
  storeGet : List DKey → Except GErr (List Rec)
  storePut : List DKey → List Rec → List DKey × Option GErr
  storeDel : List DKey → Option GErr
  encode : Bool → Rec → Except PErr GobData
  decode : Bool → GobData → Rec → Except PErr Rec
  setMultiErr : List (String × GobData) → Option PErr

/-- `encodeKeys` from `src/cachestore.go` (lines 123–129): string-encode
every key, positionally. -/
def encodeKeys (keys : List DKey) : List String :=
  keys.map DKey.enc

/-- `memcache.GetMulti`: the returned item map, as the association list of
the distinct requested keys that are present in the cache. -/
def memGetMulti (st : CSt) (ks : List String) : List (String × GobData) :=
  ks.dedup.filterMap fun s => (st s).map fun b => (s, b)

/-- Go map indexing `items[k]` (`nil` when absent). -/
def mapGet (m : List (String × GobData)) (s : String) : Option GobData :=
  match m with
  | [] => none
  | (k, b) :: rest => if k = s then some b else mapGet rest s

/-- `memcache.SetMulti`'s effect on the cache contents: store every item,
later items overwriting earlier ones with the same key. -/
def setAll (st : CSt) (items : List (String × GobData)) : CSt :=
  items.foldl (fun s it => fun x => if x = it.1 then some it.2 else s x) st

/-- `memcache.DeleteMulti`'s effect on the cache contents. -/
def delAll (st : CSt) (ks : List String) : CSt :=
  ks.foldl (fun s k => fun x => if x = k then none else s x) st

/-- The conversion inside `gobToProperties` of `src/unnamed/part_002`
(lines 211–228): a decoded property whose value is a `datastore.Key` is
turned back into a `*datastore.Key` before being sent on. -/
def convertKeyProp (p : Property) : Property :=
  match p.value with
  | .keyVal k => { p with value := .keyPtr k }
  | _ => p

/-- `gobToProperties` from `src/unnamed/part_002` (lines 211–228): decode
the gob payload into a property list and stream it to the load routine,
converting by-value keys back to key pointers. -/
def gobToProperties (b : GobData) : Except PErr (List Property) :=
  match b with
  | .corrupt msg => .error (.named msg)
  | .props ps => .ok (ps.map convertKeyProp)

/-- `gobToProperties` from `src/cachestore.go` (lines 233–246), the
Tessernote revision: identical except that properties are streamed to the
load routine unchanged (no key-pointer conversion). -/
def gobToPropertiesTessernote (b : GobData) : Except PErr (List Property) :=
  match b with
  | .corrupt msg => .error (.named msg)
  | .props ps => .ok ps

/-- The loop body of `encodeItems`, over the positionally paired
key/record batch: skip incomplete keys, abort on the first encode error
returning the items collected so far, otherwise emit one memcache item per
remaining key. -/
def encodeItemsZip (w : World) (a : Bool) : List (DKey × Rec) → List (String × GobData) × Option PErr
  | [] => ([], none)
  | (k, r) :: rest =>
    if k.incomplete then encodeItemsZip w a rest
    else
      match w.encode a r with
      | .error e => ([], some e)
      | .ok b =>
        let p := encodeItemsZip w a rest
        ((k.enc, b) :: p.1, p.2)

/-- `encodeItems` from `src/cachestore.go` (lines 131–151): build memcache
items for every key/value pair whose key is not incomplete.  The
`checkMultiArg` result decides whether elements are addressed (`Addr()`),
which the model passes to the encode oracle.  Go indexes `values` by the
key positions; the zip assumes the equal-length invariant the package
relies on. -/
def encodeItems (w : World) (ty : GoType) (keys : List DKey) (recs : List Rec) :
    List (String × GobData) × Option PErr :=
  encodeItemsZip w (addrTaken (checkMultiArg ty).1) (keys.zip recs)

/-- `cache` from `src/cachestore.go` (lines 109–120): encode the batch and
call `memcache.SetMulti` only when encoding succeeded and produced at least
one item; every failure is only logged (the function returns nothing).
Returns the new cache contents and the cache I/O issued. -/
def cache (w : World) (ty : GoType) (st : CSt) (keys : List DKey) (recs : List Rec) :
    CSt × List Ev :=
  let p := encodeItems w ty keys recs
  if 0 < p.1.length ∧ p.2 = none then
    match w.setMultiErr p.1 with
    | none => (setAll st p.1, [Ev.cacheSet p.1])
    | some _ => (st, [Ev.cacheSet p.1])
  else (st, [])

/-- The per-position error extracted from a decode outcome. -/
def errOf : Except PErr Rec → Option PErr
  | .error e => some e
  | .ok _ => none

/-- `decodeItems` from `src/cachestore.go` (lines 192–215): for each
position `i`, look the item map up under `keys[i].Encode()`; a missing item
yields `ErrNoSuchEntity`, otherwise the item's payload is decoded into
`dst[i]`.  If any position failed, the whole `MultiError` vector is
returned, else `nil`. -/
def decodeItems (w : World) (ty : GoType) (keys : List DKey)
    (items : List (String × GobData)) (dst : List Rec) :
    Option GErr × List (Except PErr Rec) :=
  let a := addrTaken (checkMultiArg ty).1
  let outs := (keys.zip dst).map fun kd =>
    match mapGet items kd.1.enc with
    | none => Except.error PErr.noSuchEntity
    | some b => w.decode a b kd.2
  let multiErr := outs.map errOf
  if multiErr.any Option.isSome then (some (.multi multiErr), outs) else (none, outs)

/-- Result of a batch Get: the returned error, the per-position destination
contents, the final cache contents, and the I/O trace. -/
structure GetRes where
  err : Option GErr
  out : List (Except PErr Rec)
  st : CSt
  tr : List Ev

/-- `GetMulti` from `src/cachestore.go` (lines 81–107): look the whole batch
up in memcache; when the number of items found differs from the batch size,
read the entire batch from the datastore (returning its error verbatim on
failure) and, on success, re-populate the cache via `cache` (whose outcome
is only logged); when every key was found, decode the items positionally
without touching the datastore. -/
def GetMulti (w : World) (st : CSt) (keys : List DKey) (ty : GoType) (dst : List Rec) :
    GetRes :=
  let encKeys := encodeKeys keys
  let itemMap := memGetMulti st encKeys
  if itemMap.length ≠ keys.length then
    match w.storeGet keys with
    | .error e => ⟨some e, dst.map Except.ok, st, [Ev.cacheGet encKeys, Ev.storeGet keys]⟩
    | .ok recs =>
      let q := cache w ty st keys recs
      ⟨none, recs.map Except.ok, q.1, Ev.cacheGet encKeys :: Ev.storeGet keys :: q.2⟩
  else
    let q := decodeItems w ty keys itemMap dst
    ⟨q.1, q.2, st, [Ev.cacheGet encKeys]⟩

/-- The `if me, ok := err.(appengine.MultiError); ok { return me[0] }`
unwrapping shared by the singular `Get`, `Put` and `Delete`.  (Go's `me[0]`
presumes the vector is non-empty, which holds for the length-1 batches the
singular operations build.) -/
def unwrapErr : Option GErr → Option GErr
  | some (GErr.multi es) => (es.headD none).map GErr.flat
  | e => e

/-- `Get` from `src/cachestore.go` (lines 64–70): a batch of one, with the
`MultiError` unwrapped to its only element. -/
def Get (w : World) (st : CSt) (k : DKey) (ty : GoType) (d : Rec) : GetRes :=
  let r := GetMulti w st [k] ty [d]
  { r with err := unwrapErr r.err }

/-- Result of a batch Put. -/
structure PutRes where
  keys : List DKey
  err : Option GErr
  st : CSt
  tr : List Ev

/-- `PutMulti` from `src/cachestore.go` (lines 265–269): write the whole
batch to the datastore in one call, then invoke the `cache` helper on the
keys the store returned — unconditionally — and return the store's keys and
error. -/
def PutMulti (w : World) (st : CSt) (keys : List DKey) (recs : List Rec) (ty : GoType) :
    PutRes :=
  let p := w.storePut keys recs
  let q := cache w ty st p.1 recs
  ⟨p.1, p.2, q.1, Ev.storePut keys :: q.2⟩

/-- Result of a singular Put. -/
structure SinglePutRes where
  key : Option DKey
  err : Option GErr
  st : CSt
  tr : List Ev

/-- `Put` from `src/cachestore.go` (lines 251–260): a batch of one; on
failure return `nil` plus the unwrapped error, on success the first
returned key. -/
def Put (w : World) (st : CSt) (k : DKey) (r : Rec) (ty : GoType) : SinglePutRes :=
  let m := PutMulti w st [k] [r] ty
  match m.err with
  | some e => ⟨none, unwrapErr (some e), m.st, m.tr⟩
  | none => ⟨m.keys.head?, none, m.st, m.tr⟩

/-- Result of a batch Delete. -/
structure DelRes where
  err : Option GErr
  st : CSt
  tr : List Ev

/-- `DeleteMulti` from `src/cachestore.go` (lines 46–52): delete from
memcache (failures only logged), then from the datastore, whose error is
returned. -/
def DeleteMulti (w : World) (st : CSt) (keys : List DKey) : DelRes :=
  ⟨w.storeDel keys, delAll st (encodeKeys keys),
    [Ev.cacheDel (encodeKeys keys), Ev.storeDel keys]⟩

/-- `Delete` from `src/cachestore.go` (lines 38–44): a batch of one, with
the `MultiError` unwrapped to its only element. -/
def Delete (w : World) (st : CSt) (k : DKey) : DelRes :=
  let r := DeleteMulti w st [k]
  { r with err := unwrapErr r.err }

/-- The datastore batch-write invocations recorded in a trace, with the key
window each one carried. -/
def storePutEvents (tr : List Ev) : List (List DKey) :=
  tr.filterMap fun e =>
    match e with
    | Ev.storePut ks => some ks
    | _ => none

/-! Concrete fixtures used by counterexamples and witnesses. -/

/-- The empty memcache. -/
def st0 : CSt := fun _ => none

/-- A complete (non-incomplete) key. -/
def kA : DKey := ⟨("kA"), false⟩

/-- An incomplete key. -/
def kInc : DKey := ⟨("kI"), true⟩

/-- The type `[]S` for a plain struct `S` (a recognized shape). -/
def tyS : GoType := GoType.sliceT false false (GoType.structT false)

/-- The type `datastore.PropertyList`: structurally a slice of structs whose
pointer type implements `PropertyLoadSaver`, but flagged as the property
list. -/
def tyPropList : GoType := GoType.sliceT true true (GoType.structT false)

/-- A world where every collaborator call succeeds. -/
def trivWorld : World where
  storeGet := fun ks => Except.ok (ks.map DKey.enc)
  storePut := fun ks _ => (ks, none)
  storeDel := fun _ => none
  encode := fun _ _ => Except.ok (GobData.props [])
  decode := fun _ _ r => Except.ok r
  setMultiErr := fun _ => none

/-- A world whose datastore batch write fails (returning the keys). -/
def wPutFail : World :=
  { trivWorld with
    storePut := fun ks _ => (ks, some (GErr.flat (PErr.named ("store write failed")))) }

/-- A world whose datastore batch read fails. -/
def wGetFail : World :=
  { trivWorld with storeGet := fun _ => Except.error (GErr.flat (PErr.named ("store read failed"))) }

/-- A world whose datastore batch delete fails per position. -/
def wDelMulti : World :=
  { trivWorld with
    storeDel := fun ks => some (GErr.multi (ks.map fun _ => some (PErr.named ("delete failed")))) }

/-- A world whose gob encoding fails. -/
def wEncFail : World :=
  { trivWorld with encode := fun _ _ => Except.error (PErr.named ("gob: type not registered")) }

/-- A world whose `memcache.SetMulti` fails. -/
def wSetFail : World :=
  { trivWorld with setMultiErr := fun _ => some (PErr.named ("memcache: server error")) }

/-- A batch of 101 distinct complete keys — one more than the datastore's
documented per-call maximum of 100. -/
def keys101 : List DKey :=
  (List.range 101).map fun i => ⟨("k" ++ toString i), false⟩

/-- 101 records to pair with `keys101`. -/
def recs101 : List Rec := List.replicate 101 ("r")

/-! Helper lemmas. -/

theorem mapGet_filterMap (l : List String) (st : CSt) (s : String) :
    mapGet (l.filterMap fun k => (st k).map fun b => (k, b)) s
      = if s ∈ l then st s else none := by
  induction l with
  | nil => simp [mapGet]
  | cons a t ih =>
    cases h : st a with
    | none =>
      rw [List.filterMap_cons]
      simp only [h, Option.map_none']
      rw [ih]
      by_cases hs : s = a
      · subst hs
        simp [h]
      · simp [List.mem_cons, hs]
    | some b =>
      rw [List.filterMap_cons]
      simp only [h, Option.map_some']
      by_cases hs : s = a
      · subst hs
        simp [mapGet, h]
      · simp only [mapGet]
        rw [if_neg (fun hh => hs hh.symm), ih]
        simp [List.mem_cons, hs]

theorem mapGet_memGetMulti (st : CSt) (ks : List String) (s : String) :
    mapGet (memGetMulti st ks) s = if s ∈ ks then st s else none := by
  rw [memGetMulti, mapGet_filterMap]
  simp [List.mem_dedup]

theorem setAll_eq_of_not_mem (items : List (String × GobData)) (st : CSt) (x : String)
    (h : x ∉ items.map Prod.fst) : setAll st items x = st x := by
  induction items generalizing st with
  | nil => rfl
  | cons it rest ih =>
    simp only [List.map_cons, List.mem_cons, not_or] at h
    show setAll (fun y => if y = it.1 then some it.2 else st y) rest x = st x
    rw [ih _ h.2]
    simp [h.1]

theorem setAll_eq_of_mem (items : List (String × GobData)) (st : CSt) (x : String)
    (b : GobData) (hnd : (items.map Prod.fst).Nodup) (h : (x, b) ∈ items) :
    setAll st items x = some b := by
  induction items generalizing st with
  | nil => cases h
  | cons it rest ih =>
    simp only [List.map_cons, List.nodup_cons] at hnd
    rcases List.mem_cons.1 h with h1 | h1
    · subst h1
      show setAll (fun y => if y = x then some b else st y) rest x = some b
      rw [setAll_eq_of_not_mem _ _ _ hnd.1]
      simp
    · show setAll (fun y => if y = it.1 then some it.2 else st y) rest x = some b
      exact ih _ hnd.2 h1

theorem get?_map_zip {γ : Type} (f : DKey × Rec → γ) (as : List DKey) (bs : List Rec)
    (i : Nat) :
    ((as.zip bs).map f).get? i
      = (as.get? i).bind fun a => (bs.get? i).map fun b => f (a, b) := by
  induction as generalizing bs i with
  | nil => simp
  | cons a as ih =>
    cases bs with
    | nil => simp
    | cons b bs =>
      cases i with
      | zero => simp
      | succ j => simpa using ih bs j

theorem encodeItemsZip_keys_of_ok (w : World) (a : Bool) (ps : List (DKey × Rec))
    (h : (encodeItemsZip w a ps).2 = none) :
    ((encodeItemsZip w a ps).1).map Prod.fst
      = (ps.filter fun kr => !kr.1.incomplete).map fun kr => kr.1.enc := by
  induction ps with
  | nil => simp [encodeItemsZip]
  | cons kr rest ih =>
    by_cases hk : kr.1.incomplete
    · have hz : encodeItemsZip w a (kr :: rest) = encodeItemsZip w a rest := by
        obtain ⟨k, r⟩ := kr
        simp only [encodeItemsZip, if_pos hk]
      rw [hz] at h ⊢
      rw [ih h, List.filter_cons, if_neg (by simp [hk])]
    · obtain ⟨k, r⟩ := kr
      cases he : w.encode a r with
      | error e => simp [encodeItemsZip, if_neg hk, he] at h
      | ok b =>
        simp only [encodeItemsZip, if_neg hk, he] at h ⊢
        rw [List.map_cons, ih h, List.filter_cons, if_pos (by simpa using hk)]
        simp

theorem encodeItemsZip_mem (w : World) (a : Bool) (ps : List (DKey × Rec)) :
    ∀ p ∈ (encodeItemsZip w a ps).1,
      ∃ kr, kr ∈ ps ∧ kr.1.incomplete = false ∧ p.1 = kr.1.enc := by
  induction ps with
  | nil => intro p hp; simp [encodeItemsZip] at hp
  | cons kr rest ih =>
    intro p hp
    by_cases hk : kr.1.incomplete
    · have hz : encodeItemsZip w a (kr :: rest) = encodeItemsZip w a rest := by
        obtain ⟨k, r⟩ := kr
        simp only [encodeItemsZip, if_pos hk]
      rw [hz] at hp
      obtain ⟨q, hq1, hq2, hq3⟩ := ih p hp
      exact ⟨q, List.mem_cons_of_mem _ hq1, hq2, hq3⟩
    · obtain ⟨k, r⟩ := kr
      simp only [encodeItemsZip, if_neg hk] at hp
      cases he : w.encode a r with
      | error e => rw [he] at hp; cases hp
      | ok b =>
        rw [he] at hp
        rcases List.mem_cons.1 hp with h1 | h1
        · subst h1
          exact ⟨(k, r), List.mem_cons_self _ _, by simpa using hk, rfl⟩
        · obtain ⟨q, hq1, hq2, hq3⟩ := ih p h1
          exact ⟨q, List.mem_cons_of_mem _ hq1, hq2, hq3⟩

theorem storePutEvents_cache (w : World) (ty : GoType) (st : CSt) (keys : List DKey)
    (recs : List Rec) : storePutEvents (cache w ty st keys recs).2 = [] := by
  rw [cache]
  split
  · cases w.setMultiErr (encodeItems w ty keys recs).1 <;> simp [storePutEvents]
  · simp [storePutEvents]

theorem unwrapErr_ne_multi (e : Option GErr) (es : List (Option PErr)) :
    unwrapErr e ≠ some (GErr.multi es) := by
  match e with
  | none => simp [unwrapErr]
  | some (GErr.flat _) => simp [unwrapErr]
  | some (GErr.multi l) =>
    simp only [unwrapErr]
    cases l.headD none <;> simp

theorem put_err_eq_unwrap (w : World) (st : CSt) (k : DKey) (r : Rec) (ty : GoType) :
    (Put w st k r ty).err = unwrapErr (PutMulti w st [k] [r] ty).err := by
  rw [Put]
  cases (PutMulti w st [k] [r] ty).err with
  | none => rfl
  | some e => rfl

theorem getMulti_miss_ok_eq (w : World) (st : CSt) (keys : List DKey) (ty : GoType)
    (dst : List Rec) (recs : List Rec)
    (hmiss : (memGetMulti st (encodeKeys keys)).length ≠ keys.length)
    (hok : w.storeGet keys = Except.ok recs) :
    GetMulti w st keys ty dst
      = ⟨none, recs.map Except.ok, (cache w ty st keys recs).1,
          Ev.cacheGet (encodeKeys keys) :: Ev.storeGet keys :: (cache w ty st keys recs).2⟩ := by
  rw [GetMulti, if_pos hmiss, hok]

theorem getMulti_miss_err_eq (w : World) (st : CSt) (keys : List DKey) (ty : GoType)
    (dst : List Rec) (e : GErr)
    (hmiss : (memGetMulti st (encodeKeys keys)).length ≠ keys.length)
    (herr : w.storeGet keys = Except.error e) :
    GetMulti w st keys ty dst
      = ⟨some e, dst.map Except.ok, st,
          [Ev.cacheGet (encodeKeys keys), Ev.storeGet keys]⟩ := by
  rw [GetMulti, if_pos hmiss, herr]

theorem getMulti_hit_eq (w : World) (st : CSt) (keys : List DKey) (ty : GoType)
    (dst : List Rec)
    (hhit : (memGetMulti st (encodeKeys keys)).length = keys.length) :
    GetMulti w st keys ty dst
      = ⟨(decodeItems w ty keys (memGetMulti st (encodeKeys keys)) dst).1,
          (decodeItems w ty keys (memGetMulti st (encodeKeys keys)) dst).2, st,
          [Ev.cacheGet (encodeKeys keys)]⟩ := by
  rw [GetMulti, if_neg (fun hc => hc hhit)]

theorem cache_eq_of_ok (w : World) (ty : GoType) (st : CSt) (keys : List DKey)
    (recs : List Rec) (items : List (String × GobData))
    (henc : encodeItems w ty keys recs = (items, none))
    (hne : items ≠ []) (hset : w.setMultiErr items = none) :
    cache w ty st keys recs = (setAll st items, [Ev.cacheSet items]) := by
  simp only [cache, henc]
  rw [if_pos ⟨List.length_pos.2 hne, trivial⟩, hset]

/-! Claim theorems. -/

/-- C4: for every batch Get served from the cache, the result written to
destination position `i` is decoded from the cache item looked up under the
string encoding of input identifier `i` (with a missing item reported as
`ErrNoSuchEntity`), so result position `i` always corresponds to input
position `i`, independent of the item map's own ordering. -/
theorem decodeItems_positional (w : World) (ty : GoType) (keys : List DKey)
    (items : List (String × GobData)) (dst : List Rec) (i : Nat) :
    ((decodeItems w ty keys items dst).2).get? i
      = (keys.get? i).bind fun k => (dst.get? i).map fun d =>
          match mapGet items k.enc with
          | none => Except.error PErr.noSuchEntity
          | some b => w.decode (addrTaken (checkMultiArg ty).1) b d := by
  have houts : (decodeItems w ty keys items dst).2
      = (keys.zip dst).map fun kd =>
          match mapGet items kd.1.enc with
          | none => Except.error PErr.noSuchEntity
          | some b => w.decode (addrTaken (checkMultiArg ty).1) b kd.2 := by
    rw [decodeItems]
    split <;> rfl
  rw [houts, get?_map_zip]

/-- C7 counterexample: the `gobToProperties` of `src/cachestore.go`
(lines 233–246) streams a decoded property whose value is a by-value
`datastore.Key` to the load routine unchanged — it is not converted to a
`*datastore.Key`. -/
theorem gobToPropertiesTessernote_keeps_key_value :
    gobToPropertiesTessernote (GobData.props [⟨("Parent"), PValue.keyVal kA⟩])
      = Except.ok [⟨("Parent"), PValue.keyVal kA⟩]
    ∧ ¬(∀ p ∈ [Property.mk ("Parent") (PValue.keyVal kA)],
          ∀ k, p.value ≠ PValue.keyVal k) := by
  constructor
  · rfl
  · intro hall
    exact hall _ (List.mem_singleton_self _) kA rfl

/-- C7 (amended): in the decode path of `src/unnamed/part_002`
(`gobToProperties`, lines 211–228) every decoded property whose value is the
identifier type `datastore.Key` is converted to a `*datastore.Key` (same
key, same property name) before being handed to the record's load routine,
so no by-value key ever reaches the load routine; the revision in
`src/cachestore.go` hands properties through unchanged. -/
theorem gobToProperties_converts_keys (ps : List Property) :
    gobToProperties (GobData.props ps) = Except.ok (ps.map convertKeyProp)
    ∧ (∀ p ∈ ps.map convertKeyProp, ∀ k, p.value ≠ PValue.keyVal k)
    ∧ (∀ p ∈ ps, ∀ k, p.value = PValue.keyVal k →
         convertKeyProp p = ⟨p.name, PValue.keyPtr k⟩) := by
  refine ⟨rfl, ?_, ?_⟩
  · intro p hp k
    rcases List.mem_map.1 hp with ⟨q, _, rfl⟩
    cases hv : q.value <;> simp [convertKeyProp, hv]
  · intro p _ k hv
    obtain ⟨n, v⟩ := p
    simp only at hv
    subst hv
    rfl

theorem gobToProperties_converts_keys_witness :
    ((⟨("Parent"), PValue.keyPtr kA⟩ : Property)
        ∈ [Property.mk ("Parent") (PValue.keyVal kA)].map convertKeyProp)
    ∧ ∀ k, (Property.mk ("Parent") (PValue.keyPtr kA)).value ≠ PValue.keyVal k := by
  refine ⟨by decide, ?_⟩
  exact (gobToProperties_converts_keys [⟨("Parent"), PValue.keyVal kA⟩]).2.1 _ (by decide)

/-- C9: the memcache items produced by `encodeItems` contain, when encoding
succeeds, an entry exactly for those batch positions whose key is not
incomplete (in order, keyed by the key's string encoding), and — encode
failure or not — every produced item is keyed by the encoding of a
non-incomplete input key: an incomplete identifier never appears as a cache
key. -/
theorem encodeItems_complete_keys_exactly (w : World) (ty : GoType) (keys : List DKey)
    (recs : List Rec) :
    ((encodeItems w ty keys recs).2 = none →
      ((encodeItems w ty keys recs).1).map Prod.fst
        = ((keys.zip recs).filter fun kr => !kr.1.incomplete).map fun kr => kr.1.enc)
    ∧ (∀ p ∈ (encodeItems w ty keys recs).1,
         ∃ kr, kr ∈ keys.zip recs ∧ kr.1.incomplete = false ∧ p.1 = kr.1.enc) := by
  constructor
  · intro h
    exact encodeItemsZip_keys_of_ok w _ _ h
  · exact encodeItemsZip_mem w _ _

theorem encodeItems_complete_keys_exactly_witness :
    (encodeItems trivWorld tyS [kA, kInc] [("r1"), ("r2")]).2 = none
    ∧ ((encodeItems trivWorld tyS [kA, kInc] [("r1"), ("r2")]).1).map Prod.fst
        = (([kA, kInc].zip [("r1"), ("r2")]).filter
            fun kr => !kr.1.incomplete).map fun kr => kr.1.enc := by
  refine ⟨by decide, ?_⟩
  exact (encodeItems_complete_keys_exactly trivWorld tyS [kA, kInc] [("r1"), ("r2")]).1
    (by decide)

/-- C10: the `cache` helper performs the `memcache.SetMulti` write exactly
when encoding produced no error and at least one item; when any record's
encoding fails, or the batch yields zero cacheable items, no cache write is
attempted and the cache contents are untouched. -/
theorem cache_all_or_nothing (w : World) (ty : GoType) (st : CSt) (keys : List DKey)
    (recs : List Rec) :
    (Ev.cacheSet (encodeItems w ty keys recs).1 ∈ (cache w ty st keys recs).2
       ↔ (encodeItems w ty keys recs).2 = none ∧ (encodeItems w ty keys recs).1 ≠ [])
    ∧ ((encodeItems w ty keys recs).2 ≠ none ∨ (encodeItems w ty keys recs).1 = [] →
        (cache w ty st keys recs).1 = st ∧ (cache w ty st keys recs).2 = []) := by
  constructor
  · rw [cache]
    split
    · rename_i hcond
      cases w.setMultiErr (encodeItems w ty keys recs).1 <;>
        simp [hcond.2, List.ne_nil_of_length_pos hcond.1]
    · rename_i hcond
      rw [not_and_or] at hcond
      simp only [List.not_mem_nil, false_iff, not_and_or]
      rcases hcond with h1 | h2
      · right
        intro hne
        exact hne (List.length_eq_zero.1 (Nat.eq_zero_of_not_pos h1))
      · exact Or.inl h2
  · intro h
    rw [cache, if_neg]
    · exact ⟨rfl, rfl⟩
    · rintro ⟨h1, h2⟩
      rcases h with h3 | h3
      · exact h3 h2
      · rw [h3] at h1
        exact Nat.lt_irrefl 0 h1

/-- C1 counterexample: a batch Put whose datastore write fails (returning
the keys alongside the error, as a partial-failure batch write does) still
writes the batch to memcache: the error is returned, yet a
`memcache.SetMulti` call was issued and the cache now holds the entry, so
the cache is not left untouched when the datastore write fails. -/
theorem putMulti_cache_written_on_store_failure :
    (PutMulti wPutFail st0 [kA] [("r1")] tyS).err
        = some (GErr.flat (PErr.named ("store write failed")))
    ∧ (PutMulti wPutFail st0 [kA] [("r1")] tyS).st ("kA") = some (GobData.props [])
    ∧ st0 ("kA") = none
    ∧ Ev.cacheSet [(("kA"), GobData.props [])] ∈ (PutMulti wPutFail st0 [kA] [("r1")] tyS).tr := by
  refine ⟨rfl, rfl, rfl, ?_⟩
  decide

/-- C1 (amended): `PutMulti` returns the datastore's error verbatim, but it
invokes the `cache` helper unconditionally on the keys the datastore
returned; the cache write is attempted whenever that helper finds encodable
complete-key items — even when the datastore write failed — and the cache is
left untouched only when the helper produced no items or an encode
failure. -/
theorem putMulti_err_passthrough_cache_always_attempted (w : World) (st : CSt)
    (keys : List DKey) (recs : List Rec) (ty : GoType) :
    (PutMulti w st keys recs ty).err = (w.storePut keys recs).2
    ∧ (PutMulti w st keys recs ty).tr
        = Ev.storePut keys :: (cache w ty st (w.storePut keys recs).1 recs).2
    ∧ ((encodeItems w ty (w.storePut keys recs).1 recs).2 ≠ none
          ∨ (encodeItems w ty (w.storePut keys recs).1 recs).1 = [] →
        (PutMulti w st keys recs ty).st = st
        ∧ (PutMulti w st keys recs ty).tr = [Ev.storePut keys])
    ∧ ((encodeItems w ty (w.storePut keys recs).1 recs).2 = none
          ∧ (encodeItems w ty (w.storePut keys recs).1 recs).1 ≠ [] →
        Ev.cacheSet (encodeItems w ty (w.storePut keys recs).1 recs).1
          ∈ (PutMulti w st keys recs ty).tr) := by
  refine ⟨rfl, rfl, ?_, ?_⟩
  · intro h
    have hc := (cache_all_or_nothing w ty st (w.storePut keys recs).1 recs).2 h
    exact ⟨hc.1, by rw [show (PutMulti w st keys recs ty).tr
      = Ev.storePut keys :: (cache w ty st (w.storePut keys recs).1 recs).2 from rfl, hc.2]⟩
  · intro h
    have hc := (cache_all_or_nothing w ty st (w.storePut keys recs).1 recs).1.2 h
    exact List.mem_cons_of_mem _ hc

theorem putMulti_err_passthrough_witness :
    ((encodeItems wPutFail tyS (wPutFail.storePut [kA] [("r1")]).1 [("r1")]).2 = none
      ∧ (encodeItems wPutFail tyS (wPutFail.storePut [kA] [("r1")]).1 [("r1")]).1 ≠ [])
    ∧ Ev.cacheSet (encodeItems wPutFail tyS (wPutFail.storePut [kA] [("r1")]).1 [("r1")]).1
        ∈ (PutMulti wPutFail st0 [kA] [("r1")] tyS).tr := by
  refine ⟨by decide, ?_⟩
  exact (putMulti_err_passthrough_cache_always_attempted wPutFail st0 [kA] [("r1")] tyS).2.2.2
    (by decide)

/-- C2 counterexample: a batch Put of 101 identifiers — one more than the
durable store's documented per-call maximum of 100 — issues exactly one
datastore batch write carrying all 101 keys: there is no windowing into
sub-batches of at most 100, so not every store invocation respects the
per-call ceiling. -/
theorem putMulti_no_window_splitting :
    storePutEvents (PutMulti trivWorld st0 keys101 recs101 tyS).tr = [keys101]
    ∧ keys101.length = 101
    ∧ ¬(∀ l ∈ storePutEvents (PutMulti trivWorld st0 keys101 recs101 tyS).tr,
          l.length ≤ 100) := by
  refine ⟨?_, by decide, ?_⟩
  · rw [show (PutMulti trivWorld st0 keys101 recs101 tyS).tr
      = Ev.storePut keys101 :: (cache trivWorld tyS st0
          (trivWorld.storePut keys101 recs101).1 recs101).2 from rfl]
    rw [storePutEvents, List.filterMap_cons]
    have := storePutEvents_cache trivWorld tyS st0 (trivWorld.storePut keys101 recs101).1 recs101
    rw [storePutEvents] at this
    simp [this]
  · intro hall
    have h1 := hall keys101 (by
      rw [show (PutMulti trivWorld st0 keys101 recs101 tyS).tr
        = Ev.storePut keys101 :: (cache trivWorld tyS st0
            (trivWorld.storePut keys101 recs101).1 recs101).2 from rfl]
      rw [storePutEvents, List.filterMap_cons]
      exact List.mem_cons_self _ _)
    have h2 : keys101.length = 101 := by decide
    omega

/-- C2 (amended): every batch Put invokes the durable store's batch write
exactly once, with the entire batch — there is no splitting into
`maxBatch`-sized windows — and the identifiers returned by that single call
are returned to the caller as the result buffer. -/
theorem putMulti_single_store_call (w : World) (st : CSt) (keys : List DKey)
    (recs : List Rec) (ty : GoType) :
    storePutEvents (PutMulti w st keys recs ty).tr = [keys]
    ∧ (PutMulti w st keys recs ty).keys = (w.storePut keys recs).1 := by
  constructor
  · rw [show (PutMulti w st keys recs ty).tr
      = Ev.storePut keys :: (cache w ty st (w.storePut keys recs).1 recs).2 from rfl]
    rw [storePutEvents, List.filterMap_cons]
    have := storePutEvents_cache w ty st (w.storePut keys recs).1 recs
    rw [storePutEvents] at this
    simp [this]
  · rfl

/-- C5: when a batch Get misses in the cache and the fallback datastore
read succeeds, `GetMulti` returns `nil` whatever happens while
re-populating the cache (encode failures and `memcache.SetMulti` failures
are only logged, never surfaced). -/
theorem getMulti_population_failure_not_surfaced (w : World) (st : CSt)
    (keys : List DKey) (ty : GoType) (dst : List Rec) (recs : List Rec)
    (hmiss : (memGetMulti st (encodeKeys keys)).length ≠ keys.length)
    (hok : w.storeGet keys = Except.ok recs) :
    (GetMulti w st keys ty dst).err = none := by
  rw [GetMulti]
  rw [if_pos hmiss, hok]

theorem getMulti_population_failure_not_surfaced_witness :
    ((memGetMulti st0 (encodeKeys [kA])).length ≠ [kA].length
      ∧ wSetFail.setMultiErr [(("kA"), GobData.props [])] ≠ none)
    ∧ (GetMulti wSetFail st0 [kA] tyS [("d")]).err = none := by
  refine ⟨by decide, ?_⟩
  exact getMulti_population_failure_not_surfaced wSetFail st0 [kA] tyS [("d")]
    [("kA")] (by decide) rfl

/-- C6 counterexample: a batch Get whose destination has the explicitly
rejected shape `datastore.PropertyList` does not fail before I/O — the
batch cache lookup is issued first (the I/O trace is non-empty and starts
with the cache read), even though `checkMultiArg` classifies the shape as
invalid. -/
theorem getMulti_invalid_shape_still_does_io :
    (checkMultiArg tyPropList).1 = MultiArgType.invalid
    ∧ (GetMulti wGetFail st0 [kA] tyPropList [("d")]).tr ≠ []
    ∧ (GetMulti wGetFail st0 [kA] tyPropList [("d")]).tr.head?
        = some (Ev.cacheGet [("kA")]) := by
  refine ⟨rfl, by decide, by decide⟩

/-- C6 (amended): `checkMultiArg` recognizes exactly the record-sequence
shapes the spec lists — a slice of structs, of struct pointers, of
interface values, or of PropertyLoadSaver-implementing values — and
explicitly rejects `datastore.PropertyList` even though it is structurally
a slice of structs; but an invalid shape does not abort the batch call
before I/O: `GetMulti` always issues the batch cache lookup first, shape
notwithstanding. -/
theorem checkMultiArg_classification_io_first :
    (∀ t : GoType, (checkMultiArg t).1 = MultiArgType.invalid ↔ recognizedShape t = false)
    ∧ (∀ (pls : Bool) (elem : GoType),
        (checkMultiArg (GoType.sliceT pls true elem)).1 = MultiArgType.invalid)
    ∧ (∀ (w : World) (st : CSt) (keys : List DKey) (ty : GoType) (dst : List Rec),
        (GetMulti w st keys ty dst).tr.head? = some (Ev.cacheGet (encodeKeys keys))) := by
  refine ⟨?_, ?_, ?_⟩
  · intro t
    cases t with
    | sliceT b ipl elem =>
      cases ipl
      · cases hp : elem.ptrPLS
        · cases elem <;> simp_all [checkMultiArg, recognizedShape, GoType.ptrPLS]
          rename_i pb inner
          cases inner <;> simp [checkMultiArg, recognizedShape]
        · cases elem <;> simp_all [checkMultiArg, recognizedShape, GoType.ptrPLS]
      · simp [checkMultiArg, recognizedShape]
    | structT b => simp [checkMultiArg, recognizedShape]
    | ifaceT b => simp [checkMultiArg, recognizedShape]
    | ptrT b elem => simp [checkMultiArg, recognizedShape]
    | otherT b => simp [checkMultiArg, recognizedShape]
  · intro pls elem
    simp [checkMultiArg]
  · intro w st keys ty dst
    rw [GetMulti]
    split
    · cases w.storeGet keys <;> rfl
    · rfl

/-- C3: when the number of cache hits differs from the batch size,
`GetMulti` reads the *entire* batch from the datastore — returning the
store's error on failure — and, on a successful store read, re-populates
the cache via the `cache` helper with everything just read (pointwise: on a
clean encode/set run every produced item is afterwards present in the
cache); when every key hit, each position is decoded from its cache item
and the datastore is never touched. -/
theorem getMulti_miss_full_read_then_repopulate (w : World) (st : CSt)
    (keys : List DKey) (ty : GoType) (dst : List Rec) :
    ((memGetMulti st (encodeKeys keys)).length ≠ keys.length →
        Ev.storeGet keys ∈ (GetMulti w st keys ty dst).tr
        ∧ (∀ recs, w.storeGet keys = Except.ok recs →
            (GetMulti w st keys ty dst).st = (cache w ty st keys recs).1
            ∧ (GetMulti w st keys ty dst).tr
                = Ev.cacheGet (encodeKeys keys) :: Ev.storeGet keys
                    :: (cache w ty st keys recs).2
            ∧ (GetMulti w st keys ty dst).out = recs.map Except.ok
            ∧ (GetMulti w st keys ty dst).err = none)
        ∧ (∀ e, w.storeGet keys = Except.error e →
            (GetMulti w st keys ty dst).err = some e
            ∧ (GetMulti w st keys ty dst).st = st))
    ∧ ((memGetMulti st (encodeKeys keys)).length = keys.length →
        (∀ ks, Ev.storeGet ks ∉ (GetMulti w st keys ty dst).tr)
        ∧ (GetMulti w st keys ty dst).st = st
        ∧ (GetMulti w st keys ty dst).out
            = (decodeItems w ty keys (memGetMulti st (encodeKeys keys)) dst).2
        ∧ (GetMulti w st keys ty dst).err
            = (decodeItems w ty keys (memGetMulti st (encodeKeys keys)) dst).1)
    ∧ (∀ recs items,
        (memGetMulti st (encodeKeys keys)).length ≠ keys.length →
        w.storeGet keys = Except.ok recs →
        encodeItems w ty keys recs = (items, none) →
        items ≠ [] → w.setMultiErr items = none →
        (items.map Prod.fst).Nodup →
        ∀ p ∈ items, (GetMulti w st keys ty dst).st p.1 = some p.2) := by
  refine ⟨?_, ?_, ?_⟩
  · intro hmiss
    refine ⟨?_, ?_, ?_⟩
    · cases hs : w.storeGet keys with
      | error e =>
        rw [getMulti_miss_err_eq w st keys ty dst e hmiss hs]
        simp
      | ok recs =>
        rw [getMulti_miss_ok_eq w st keys ty dst recs hmiss hs]
        simp
    · intro recs hok
      rw [getMulti_miss_ok_eq w st keys ty dst recs hmiss hok]
      exact ⟨rfl, rfl, rfl, rfl⟩
    · intro e herr
      rw [getMulti_miss_err_eq w st keys ty dst e hmiss herr]
      exact ⟨rfl, rfl⟩
  · intro hhit
    rw [getMulti_hit_eq w st keys ty dst hhit]
    refine ⟨?_, rfl, rfl, rfl⟩
    intro ks hmem
    simp at hmem
  · intro recs items hmiss hok henc hne hset hnd p hp
    rw [getMulti_miss_ok_eq w st keys ty dst recs hmiss hok]
    show (cache w ty st keys recs).1 p.1 = some p.2
    rw [cache_eq_of_ok w ty st keys recs items henc hne hset]
    show setAll st items p.1 = some p.2
    exact setAll_eq_of_mem items st p.1 p.2 hnd (by simpa using hp)

theorem getMulti_miss_full_read_then_repopulate_witness :
    ((memGetMulti st0 (encodeKeys [kA])).length ≠ [kA].length
      ∧ trivWorld.storeGet [kA] = Except.ok [("kA")]
      ∧ encodeItems trivWorld tyS [kA] [("kA")] = ([(("kA"), GobData.props [])], none))
    ∧ (GetMulti trivWorld st0 [kA] tyS [("d")]).st ("kA") = some (GobData.props []) := by
  refine ⟨⟨by decide, rfl, by decide⟩, ?_⟩
  exact (getMulti_miss_full_read_then_repopulate trivWorld st0 [kA] tyS [("d")]).2.2
    [("kA")] [(("kA"), GobData.props [])] (by decide) rfl (by decide) (by decide) rfl
    (by decide) (("kA"), GobData.props []) (by decide)

/-- C8: the singular `Get`, `Put` and `Delete` (each a batch of exactly
one) never return the wrapped `MultiError` itself; whenever the underlying
batch operation failed with a `MultiError`, the singular operation returns
its element 0 as a bare error. -/
theorem single_ops_unwrap_multierror (w : World) (st : CSt) (k : DKey) (d : Rec)
    (r : Rec) (ty : GoType) :
    (∀ es, (Get w st k ty d).err ≠ some (GErr.multi es))
    ∧ (∀ es, (Put w st k r ty).err ≠ some (GErr.multi es))
    ∧ (∀ es, (Delete w st k).err ≠ some (GErr.multi es))
    ∧ (∀ es, (GetMulti w st [k] ty [d]).err = some (GErr.multi es) →
        (Get w st k ty d).err = (es.headD none).map GErr.flat)
    ∧ (∀ es, (PutMulti w st [k] [r] ty).err = some (GErr.multi es) →
        (Put w st k r ty).err = (es.headD none).map GErr.flat)
    ∧ (∀ es, (DeleteMulti w st [k]).err = some (GErr.multi es) →
        (Delete w st k).err = (es.headD none).map GErr.flat) := by
  have hget : (Get w st k ty d).err = unwrapErr (GetMulti w st [k] ty [d]).err := rfl
  have hdel : (Delete w st k).err = unwrapErr (DeleteMulti w st [k]).err := rfl
  have hput := put_err_eq_unwrap w st k r ty
  refine ⟨?_, ?_, ?_, ?_, ?_, ?_⟩
  · intro es
    rw [hget]
    exact unwrapErr_ne_multi _ es
  · intro es
    rw [hput]
    exact unwrapErr_ne_multi _ es
  · intro es
    rw [hdel]
    exact unwrapErr_ne_multi _ es
  · intro es h
    rw [hget, h]
    rfl
  · intro es h
    rw [hput, h]
    rfl
  · intro es h
    rw [hdel, h]
    rfl

theorem single_ops_unwrap_multierror_witness :
    (DeleteMulti wDelMulti st0 [kA]).err
        = some (GErr.multi [some (PErr.named ("delete failed"))])
    ∧ (Delete wDelMulti st0 kA).err = some (GErr.flat (PErr.named ("delete failed"))) := by
  refine ⟨by decide, ?_⟩
  exact (single_ops_unwrap_multierror wDelMulti st0 kA ("d") ("r") tyS).2.2.2.2.2
    [some (PErr.named ("delete failed"))] (by decide)

theorem cache_all_or_nothing_witness :
    (encodeItems wEncFail tyS [kA] [("r1")]).2 ≠ none
    ∧ (cache wEncFail tyS st0 [kA] [("r1")]).1 = st0
    ∧ (cache wEncFail tyS st0 [kA] [("r1")]).2 = [] := by
  refine ⟨by decide, ?_⟩
  exact (cache_all_or_nothing wEncFail tyS st0 [kA] [("r1")]).2 (Or.inl (by decide))

end Cachestore
